import Mathlib

/-!
Verification of `ss.py` (subtitle searcher/downloader).

A file's bytes are modelled as a `List Nat` (each element < 256 in intended
use).  Python strings are Lean `String`s; file-system paths for the movie
discovery component are lists of path components.  Machine arithmetic is
modelled with `Nat`/`Int` and explicit `% 2^64` masking, exactly where the
source masks.
-/

namespace SS

/-- `2^64`, the mask modulus used by the hash loop (`0xFFFFFFFFFFFFFFFF + 1`). -/
def mod64 : Int := 18446744073709551616

/-- `2^63`, the signedness threshold for an unsigned 64-bit chunk value. -/
def half64 : Nat := 9223372036854775808

/-- Little-endian unsigned value of a byte list, as `struct.unpack` reads an
8-byte buffer (first byte is least significant). -/
def bytesToNatLE : List Nat → Nat
  | [] => 0
  | b :: rest => b + 256 * bytesToNatLE rest

/-- Two's-complement (signed `long long`, format `'q'`) reading of an unsigned
64-bit value, as `struct.unpack('q', buffer)` produces it. -/
def toSigned64 (u : Nat) : Int :=
  if u < half64 then (u : Int) else (u : Int) - mod64

/-- `hash += l_value; hash = hash & 0xFFFFFFFFFFFFFFFF`: one loop body of
`calculate_hash_for_file` (the mask is applied after each addition). -/
def addMask64 (h : Nat) (v : Int) : Nat :=
  (((h : Int) + v) % mod64).toNat

/-- One hash loop of `calculate_hash_for_file`: `n` iterations, each doing
`buffer = f.read(8)` (modelled as taking the next 8 bytes of the remaining
stream), unpacking it as a signed 64-bit integer and folding it into the
accumulator with masking.  Returns the accumulator and the rest of the
stream (the file position after the loop).  When the file is large enough
every read returns a full 8 bytes, which is the only situation the source
reaches the loops in. -/
def hashLoop : Nat → Nat → List Nat → Nat × List Nat
  | 0, h, s => (h, s)
  | n + 1, h, s =>
      hashLoop n (addMask64 h (toSigned64 (bytesToNatLE (s.take 8)))) (s.drop 8)

/-- `"%016x" % hash`: lowercase hex digits, left-padded with `'0'` to 16
characters (for values below `2^64` this is exactly Python's rendering). -/
def hexPad16 (h : Nat) : String :=
  let ds := Nat.toDigits 16 h
  String.mk (List.replicate (16 - ds.length) '0' ++ ds)

/-- `calculate_hash_for_file`, with an explicit trace of whether the function
itself closed the file handle it opened.  The source opens `f`, computes the
size, and *returns `"SizeError"` without reaching `f.close()`* when
`filesize < 65536 * 2`; on the normal path it runs the two 8192-iteration
loops (the second after `f.seek(max(0, filesize - 65536), 0)`) and closes
the handle before rendering the hash.  The `Bool` component records whether
`f.close()` was executed on that path. -/
def calculate_hash_for_file_run (content : List Nat) : String × Bool :=
  let filesize := content.length
  let hash := filesize
  if filesize < 65536 * 2 then
    ("SizeError", false)
  else
    let r₁ := hashLoop (65536 / 8) hash content
    let stream2 := content.drop (filesize - 65536)
    let r₂ := hashLoop (65536 / 8) r₁.1 stream2
    (hexPad16 r₂.1, true)

/-- The return value of `calculate_hash_for_file` (the traced run without the
close flag). -/
def calculate_hash_for_file (content : List Nat) : String :=
  (calculate_hash_for_file_run content).1

/-- Whether the function closed its file handle on the given input. -/
def hash_file_handle_closed (content : List Nat) : Bool :=
  (calculate_hash_for_file_run content).2

/-- A successful fingerprint string: exactly 16 lowercase hex digits. -/
def isFingerprintString (s : String) : Bool :=
  s.length = 16 && s.data.all (fun c => c.isDigit || ('a' ≤ c && c ≤ 'f'))

/-- Reference fingerprint, following the specification's words: starting from
an accumulator equal to the file size, add each of the first 65536 bytes
taken as 8192 signed 64-bit little-endian integers, masking to 64 bits after
each addition; then seek to `size - 65536` and add the next 8192 such
integers the same way; render the result as a lowercase zero-padded
16-hex-digit string. -/
def specChunkInts (window : List Nat) : List Int :=
  (List.range 8192).map (fun i => toSigned64 (bytesToNatLE ((window.drop (8 * i)).take 8)))

def specFingerprint (content : List Nat) : String :=
  let size := content.length
  let ints₁ := specChunkInts (content.take 65536)
  let ints₂ := specChunkInts ((content.drop (size - 65536)).take 65536)
  hexPad16 (List.foldl addMask64 size (ints₁ ++ ints₂))

/-- The sequential read loop equals a fold over position-indexed 8-byte
chunks of the remaining stream. -/
theorem hashLoop_eq (n : Nat) (h : Nat) (s : List Nat) :
    hashLoop n h s =
      (List.foldl addMask64 h
        ((List.range n).map (fun i => toSigned64 (bytesToNatLE ((s.drop (8 * i)).take 8)))),
       s.drop (8 * n)) := by
  induction n generalizing h s with
  | zero => simp [hashLoop]
  | succ n ih =>
      rw [hashLoop, ih]
      rw [List.range_succ_eq_map]
      simp only [List.map_cons, List.map_map, List.foldl_cons, Nat.mul_zero, List.drop_zero]
      congr 1
      · congr 1
        apply List.map_congr_left
        intro i _
        simp only [Function.comp_apply, List.drop_drop]
        congr 4
        omega
      · rw [List.drop_drop]
        congr 1
        omega

/-- Taking an 8-byte chunk at offset `8*i`, `i < 8192`, from a 65536-byte
window of a stream is the same as taking it from the stream itself. -/
theorem chunk_of_window (s : List Nat) (i : Nat) (hi : i < 8192) :
    ((s.take 65536).drop (8 * i)).take 8 = (s.drop (8 * i)).take 8 := by
  rw [List.drop_take]
  rw [List.take_take]
  congr 1
  omega

/-- C1: for every file of size at least 131072 bytes, `calculate_hash_for_file`
returns exactly the reference value of the specification: accumulator seeded
with the file size, the first 65536 bytes added as 8192 signed 64-bit
little-endian integers with masking after each addition, then the 65536
bytes starting at `size - 65536` added the same way, rendered as a lowercase
zero-padded 16-hex-digit string. -/
theorem fingerprint_matches_reference (content : List Nat) (hlen : 131072 ≤ content.length) :
    calculate_hash_for_file content = specFingerprint content := by
  have e₁ : (List.range 8192).map
        (fun i => toSigned64 (bytesToNatLE (((content.take 65536).drop (8 * i)).take 8))) =
      (List.range 8192).map
        (fun i => toSigned64 (bytesToNatLE ((content.drop (8 * i)).take 8))) :=
    List.map_congr_left (fun i hi => by rw [chunk_of_window content i (List.mem_range.mp hi)])
  have e₂ : (List.range 8192).map
        (fun i => toSigned64 (bytesToNatLE
          ((((content.drop (content.length - 65536)).take 65536).drop (8 * i)).take 8))) =
      (List.range 8192).map
        (fun i => toSigned64 (bytesToNatLE
          (((content.drop (content.length - 65536)).drop (8 * i)).take 8))) :=
    List.map_congr_left (fun i hi => by rw [chunk_of_window _ i (List.mem_range.mp hi)])
  simp only [calculate_hash_for_file, calculate_hash_for_file_run, specFingerprint,
    specChunkInts]
  rw [if_neg (show ¬ content.length < 65536 * 2 by omega)]
  rw [hashLoop_eq, hashLoop_eq]
  dsimp only
  rw [show (65536 : Nat) / 8 = 8192 from by norm_num]
  rw [List.foldl_append, e₁, e₂]

theorem fingerprint_matches_reference_witness :
    131072 ≤ (List.replicate 131072 0).length ∧
      calculate_hash_for_file (List.replicate 131072 0) =
        specFingerprint (List.replicate 131072 0) :=
  ⟨by rw [List.length_replicate],
   fingerprint_matches_reference (List.replicate 131072 0) (by rw [List.length_replicate])⟩

/-- C2: for every file of size strictly less than 131072 bytes,
`calculate_hash_for_file` takes the too-small branch: it produces the
`"SizeError"` outcome (the code's realization of the `FileTooSmall` error)
and never a successful 16-hex-digit fingerprint string. -/
theorem fingerprint_too_small (content : List Nat) (h : content.length < 131072) :
    calculate_hash_for_file content = "SizeError" ∧
      isFingerprintString (calculate_hash_for_file content) = false := by
  have he : calculate_hash_for_file content = "SizeError" := by
    simp only [calculate_hash_for_file, calculate_hash_for_file_run]
    rw [if_pos (by omega)]
  refine ⟨he, ?_⟩
  rw [he]
  decide

theorem fingerprint_too_small_witness :
    calculate_hash_for_file [] = "SizeError" ∧
      isFingerprintString (calculate_hash_for_file []) = false :=
  fingerprint_too_small [] (by decide)

/-- C3: on the too-small exit path the source returns `"SizeError"` at line
238 *without* executing `f.close()` (which only occurs at line 254, after
the two read loops): the file handle opened at line 232 is not released by
the function on that exit path.  Evaluated here on the empty file. -/
theorem hash_handle_not_closed_on_small_file :
    hash_file_handle_closed [] = false ∧ calculate_hash_for_file [] = "SizeError" :=
  ⟨rfl, rfl⟩

/-! ### Filename resolver (`obtain_subtitle_filename`) -/

/-- Index of the last occurrence of `c` in `l` (Python `str.rfind`, as an
`Option` instead of `-1`). -/
def lastIdxOf (c : Char) : List Char → Option Nat
  | [] => none
  | a :: rest =>
      match lastIdxOf c rest with
      | some i => some (i + 1)
      | none => if a = c then some 0 else none

/-- `str.rstrip('/')`: remove trailing slashes. -/
def rstripSlashes (l : List Char) : List Char :=
  (l.reverse.dropWhile (fun c => c = '/')).reverse

/-- `os.path.basename`: everything after the last `'/'` (the whole string if
there is none). -/
def osBasename (p : String) : String :=
  match lastIdxOf '/' p.data with
  | none => p
  | some i => String.mk (p.data.drop (i + 1))

/-- `os.path.dirname`: everything before the last `'/'`, with trailing
slashes stripped unless the head consists only of slashes; empty when there
is no `'/'`. -/
def osDirname (p : String) : String :=
  match lastIdxOf '/' p.data with
  | none => ""
  | some i =>
      let head := p.data.take (i + 1)
      if head.all (fun c => c = '/') then String.mk head
      else String.mk (rstripSlashes head)

/-- `os.path.splitext`: split at the last `'.'` that lies after the last
`'/'`, provided some character strictly between them is not a dot (so
leading dots of the base name never start an extension). -/
def osSplitext (p : String) : String × String :=
  let sepIdx : Int :=
    match lastIdxOf '/' p.data with
    | some i => (i : Int)
    | none => -1
  match lastIdxOf '.' p.data with
  | none => (p, "")
  | some d =>
      if sepIdx < (d : Int) then
        let fnameStart := (sepIdx + 1).toNat
        let between := (p.data.drop fnameStart).take (d - fnameStart)
        if between.any (fun c => c ≠ '.') then
          (String.mk (p.data.take d), String.mk (p.data.drop d))
        else (p, "")
      else (p, "")

/-- `os.path.join` for two components (POSIX): an absolute second component
replaces the first; otherwise they are glued with `'/'` unless the first is
empty or already ends with `'/'`. -/
def osJoin (a b : String) : String :=
  if b.startsWith "/" then b
  else if a = "" || a.endsWith "/" then a ++ b
  else a ++ "/" ++ b

/-- `obtain_subtitle_filename`, with the file-system state abstracted as the
predicate `isfile` (`os.path.isfile`).  The source tries
`<dir>/<basename><ext>` then `<dir>/<basename>.<language><ext>`, returning
the first that is not an existing file, and otherwise returns
`<dir>/<basename>.<language>.ss<ext>` with no existence check. -/
def obtain_subtitle_filename (isfile : String → Bool) (movie_filename language subtitle_ext : String) :
    String :=
  let dirname := osDirname movie_filename
  let basename := (osSplitext (osBasename movie_filename)).1
  let filenames := [osJoin dirname (basename ++ subtitle_ext),
                    osJoin dirname (basename ++ "." ++ language ++ subtitle_ext)]
  match filenames.find? (fun fn => !(isfile fn)) with
  | some fn => fn
  | none => osJoin dirname (basename ++ "." ++ language ++ "." ++ "ss" ++ subtitle_ext)

/-- C4: the resolver returns `<dir>/<basename><ext>` when that path is not an
existing file; otherwise `<dir>/<basename>.<language><ext>` when that one is
not; otherwise `<dir>/<basename>.<language>.ss<ext>` unconditionally — the
third candidate is returned even when it already exists, since its existence
is never consulted. -/
theorem obtain_subtitle_filename_cases (isfile : String → Bool)
    (movie_filename language subtitle_ext : String) :
    obtain_subtitle_filename isfile movie_filename language subtitle_ext =
      (let dir := osDirname movie_filename
       let base := (osSplitext (osBasename movie_filename)).1
       let c₁ := osJoin dir (base ++ subtitle_ext)
       let c₂ := osJoin dir (base ++ "." ++ language ++ subtitle_ext)
       let c₃ := osJoin dir (base ++ "." ++ language ++ "." ++ "ss" ++ subtitle_ext)
       if isfile c₁ = false then c₁ else if isfile c₂ = false then c₂ else c₃) := by
  simp only [obtain_subtitle_filename]
  cases h₁ : isfile (osJoin (osDirname movie_filename)
      ((osSplitext (osBasename movie_filename)).1 ++ subtitle_ext)) <;>
    cases h₂ : isfile (osJoin (osDirname movie_filename)
      ((osSplitext (osBasename movie_filename)).1 ++ "." ++ language ++ subtitle_ext)) <;>
    simp [List.find?, h₁, h₂]

/-! ### Result selection (`filter_bad_results` / `find_subtitles`) -/

/-- A search result from the external collaborator, reduced to the fields the
source reads.  `SeriesSeason`/`SeriesEpisode` arrive as strings and are
parsed with `int(...)` before comparison; they are modelled here already as
integers. -/
structure SearchResult where
  SeriesSeason : Int
  SeriesEpisode : Int
  SubDownloadLink : String
  SubFormat : String
deriving DecidableEq, Repr

/-- The query dictionary built by `obtain_guessit_query`: the free-text query,
season/episode keys that are present only when guessit extracted them, and
the language. -/
structure GuessitQuery where
  query : String
  season : Option Int := none
  episode : Option Int := none
  sublanguageid : String
deriving DecidableEq, Repr

/-- `filter_bad_results`: when the query carries both a season and an episode
number, keep only results whose `(SeriesSeason, SeriesEpisode)` pair equals
the query's pair; otherwise return the results unchanged. -/
def filter_bad_results (search_results : List SearchResult) (guessit_query : GuessitQuery) :
    List SearchResult :=
  match guessit_query.season, guessit_query.episode with
  | some s, some e =>
      search_results.filter (fun x => (x.SeriesSeason, x.SeriesEpisode) = (s, e))
  | _, _ => search_results

/-- The per-movie selection implemented jointly by `query_open_subtitles` and
`find_subtitles`: the former stores `filter_bad_results data query` in the
result dictionary only when the raw `data` is non-empty, and the latter takes
element `[0]` of the stored list when that list is non-empty, yielding the
no-match sentinel otherwise. -/
def select_search_result (data : List SearchResult) (guessit_query : GuessitQuery) :
    Option SearchResult :=
  let stored : Option (List SearchResult) :=
    if data.isEmpty then none else some (filter_bad_results data guessit_query)
  match stored.getD [] with
  | [] => none
  | r :: _ => some r

/-- The triple yielded by `find_subtitles` for one movie: the no-match
sentinel `(movie, none, none)`, or the first selected result's download link
and dot-prefixed format. -/
def find_subtitles_entry (movie_filename : String) (data : List SearchResult)
    (guessit_query : GuessitQuery) : String × Option String × Option String :=
  match select_search_result data guessit_query with
  | none => (movie_filename, none, none)
  | some r => (movie_filename, some r.SubDownloadLink, some ("." ++ r.SubFormat))

/-- C5: when the query carries both a season and an episode number, every
result whose parsed pair differs from the query's is discarded and the first
remaining result (in original order) is selected; when season or episode is
absent, the first result of the unfiltered list is selected; an empty or
fully filtered-out list selects nothing (the no-match sentinel). -/
theorem select_eq_filter_head (data : List SearchResult) (q : GuessitQuery) :
    select_search_result data q = (filter_bad_results data q).head? := by
  cases data with
  | nil =>
      have hnil : filter_bad_results [] q = [] := by
        unfold filter_bad_results
        cases q.season <;> cases q.episode <;> simp
      simp [select_search_result, hnil]
  | cons a l =>
      simp only [select_search_result, List.isEmpty_cons, Bool.false_eq_true, if_false,
        Option.getD_some]
      cases h : filter_bad_results (a :: l) q with
      | nil => simp
      | cons b t => simp

theorem select_search_result_spec (data : List SearchResult) (q : GuessitQuery) :
    (∀ s e, q.season = some s → q.episode = some e →
        select_search_result data q =
          (data.filter (fun r => (r.SeriesSeason, r.SeriesEpisode) = (s, e))).head?) ∧
    (q.season = none ∨ q.episode = none → select_search_result data q = data.head?) ∧
    (select_search_result data q = none ↔ filter_bad_results data q = []) := by
  refine ⟨?_, ?_, ?_⟩
  · intro s e hs he
    rw [select_eq_filter_head]
    unfold filter_bad_results
    rw [hs, he]
  · intro h
    have hfilter : filter_bad_results data q = data := by
      unfold filter_bad_results
      rcases h with h | h <;> (rw [h]; try (cases q.season <;> cases q.episode <;> rfl))
    rw [select_eq_filter_head, hfilter]
  · rw [select_eq_filter_head]
    exact List.head?_eq_none_iff

theorem select_search_result_spec_witness :
    select_search_result
        [⟨1, 3, "l1", "srt"⟩, ⟨1, 2, "l2", "srt"⟩, ⟨1, 2, "l3", "srt"⟩]
        ⟨"q", some 1, some 2, "eng"⟩ = some ⟨1, 2, "l2", "srt"⟩ := by
  rw [(select_search_result_spec
        [⟨1, 3, "l1", "srt"⟩, ⟨1, 2, "l2", "srt"⟩, ⟨1, 2, "l3", "srt"⟩]
        ⟨"q", some 1, some 2, "eng"⟩).1 1 2 rfl rfl]
  rfl

/-! ### Movie discovery (`find_movie_files`) -/

/-- A file-system tree: a regular file, or a directory with named entries
(`os.listdir` order).  Paths are lists of components; `os.path.join(a, b)`
for a directory `a` and entry name `b` appends one component. -/
inductive FsNode where
  | file
  | dir (entries : List (String × FsNode))
deriving Repr

abbrev FsPath := List String

/-- Resolve a path against a tree. -/
def FsNode.lookup : FsNode → FsPath → Option FsNode
  | node, [] => some node
  | .file, _ :: _ => none
  | .dir entries, name :: rest =>
      match entries.find? (fun e => e.1 == name) with
      | some e => e.2.lookup rest
      | none => none

/-- The fixed recognized extension set of `find_movie_files`. -/
def movieExtensions : List String := [".avi", ".mp4", ".mpg", ".mkv"]

/-- `name[-4:]`: the last four characters (the whole string when shorter). -/
def last4 (name : String) : String :=
  String.mk (name.data.drop (name.data.length - 4))

/-- The directory-listing loop of `find_movie_files` over one directory's
entries: `result = os.path.join(input_name, name)`; names whose last four
characters are a recognized extension are yielded when not already in the
`returned` set (which is threaded on); otherwise directory entries are
descended into when `recursive` — and the source performs that descent as
`find_movie_files([result], recursive)`, a fresh call whose `returned` set
starts empty and whose result does not feed the caller's set.  Returns the
yielded paths and the updated `returned` set. -/
def fmfEntries (recursive : Bool) :
    FsPath → List (String × FsNode) → List FsPath → (List FsPath × List FsPath)
  | _, [], returned => ([], returned)
  | path, (name, node) :: rest, returned =>
      let result := path ++ [name]
      if movieExtensions.contains (last4 name) then
        if returned.contains result then
          fmfEntries recursive path rest returned
        else
          let r := fmfEntries recursive path rest (result :: returned)
          (result :: r.1, r.2)
      else
        match node with
        | .dir entries =>
            if recursive then
              let inner := fmfEntries recursive result entries []
              let r := fmfEntries recursive path rest returned
              (inner.1 ++ r.1, r.2)
            else
              fmfEntries recursive path rest returned
        | .file => fmfEntries recursive path rest returned

/-- The outer loop of `find_movie_files` over the input names.  A file input
not yet in `returned` is yielded and recorded; any other input falls to the
`os.listdir` branch, which raises for a missing path or a file (modelled by
the `false` completion flag, ending the generator). -/
def find_movie_files_go (root : FsNode) (recursive : Bool) :
    List FsPath → List FsPath → (List FsPath × Bool)
  | [], _ => ([], true)
  | input :: rest, returned =>
      match root.lookup input with
      | some .file =>
          if returned.contains input then
            ([], false)
          else
            let r := find_movie_files_go root recursive rest (input :: returned)
            (input :: r.1, r.2)
      | some (.dir entries) =>
          let inner := fmfEntries recursive input entries returned
          let r := find_movie_files_go root recursive rest inner.2
          (inner.1 ++ r.1, r.2)
      | none => ([], false)

/-- `find_movie_files(input_names, recursive)` over the tree `root`: the
yielded paths in order, and whether the generator ran to completion. -/
def find_movie_files (root : FsNode) (input_names : List FsPath) (recursive : Bool) :
    List FsPath × Bool :=
  find_movie_files_go root recursive input_names []

/-- The file system `d/sub/c.avi`. -/
def fsRoot₀ : FsNode :=
  .dir [("d", .dir [("sub", .dir [("c.avi", .file)])])]

/-- C6: with inputs `["d/sub/c.avi", "d"]` and `recursive` on, the file
`d/sub/c.avi` — reachable both as a direct input and through the recursive
traversal of `d` — is yielded twice: the recursive descent at line 173
restarts with a fresh `returned` set, so de-duplication does not extend
across the whole call. -/
theorem find_movie_files_duplicate_yield :
    (find_movie_files fsRoot₀ [["d", "sub", "c.avi"], ["d"]] true).1
        = [["d", "sub", "c.avi"], ["d", "sub", "c.avi"]] ∧
      ¬ (find_movie_files fsRoot₀ [["d", "sub", "c.avi"], ["d"]] true).1.Nodup := by
  constructor
  · simp [find_movie_files, find_movie_files_go, fmfEntries, FsNode.lookup, fsRoot₀,
      movieExtensions, last4, List.find?]
  · simp [find_movie_files, find_movie_files_go, fmfEntries, FsNode.lookup, fsRoot₀,
      movieExtensions, last4, List.find?]

/-! ### Configuration persistence (`Configuration`, `load_configuration`,
`_change_configuration`) -/

/-- The `Configuration` class: four fields with the `__init__` defaults. -/
structure Configuration where
  language : String := "eng"
  recursive : Bool := false
  skip : Bool := false
  mkv : Bool := false
deriving DecidableEq, Repr

/-- Python `str(bool)`. -/
def pyBoolStr (b : Bool) : String :=
  if b then "True" else "False"

/-- Modelled from the spec: `Configuration.get_lines`, the method
`_change_configuration` writes out, is absent from the source; the spec says
the configuration is persisted as a key/value section, and `Configuration.__str__`
in the source fixes the `key = value` line shape, so the written lines are
the `[ss]` section header followed by the four `key = value` lines. -/
def get_lines (c : Configuration) : List String :=
  ["[ss]",
   "language = " ++ c.language,
   "recursive = " ++ pyBoolStr c.recursive,
   "skip = " ++ pyBoolStr c.skip,
   "mkv = " ++ pyBoolStr c.mkv]

/-- The write loop of `_change_configuration`: each line followed by `'\n'`,
producing the file's character contents. -/
def writeLines (lines : List String) : List Char :=
  (lines.map (fun l => l.data ++ ['\n'])).flatten

/-- Split file contents into lines at `'\n'`. -/
def splitOnNl : List Char → List (List Char)
  | [] => [[]]
  | c :: rest =>
      if c = '\n' then [] :: splitOnNl rest
      else
        match splitOnNl rest with
        | l :: ls => (c :: l) :: ls
        | [] => [[c]]

/-- `str.strip()` on characters. -/
def trimChars (l : List Char) : List Char :=
  (((l.dropWhile Char.isWhitespace).reverse.dropWhile Char.isWhitespace)).reverse

/-- `str.lower()` on characters. -/
def lowerChars (l : List Char) : List Char :=
  l.map Char.toLower

/-- Split at the first occurrence of `c`, returning the parts before and
after it. -/
def splitAtFirst (c : Char) : List Char → Option (List Char × List Char)
  | [] => none
  | a :: rest =>
      if a = c then some ([], rest)
      else (splitAtFirst c rest).map (fun p => (a :: p.1, p.2))

/-- The configuration-file parser (`RawConfigParser`, an external stdlib
collaborator the spec leaves out of scope), modelled for the line shapes the
writer produces: blank lines are skipped, a `[name]` line selects the
current section, and a `key = value` line records the option — key
lowercased and stripped, value stripped — when the current section is `ss`
(the only section `load_configuration` reads). -/
def iniOptions : List (List Char) → String → List (String × String)
  | [], _ => []
  | line :: rest, current =>
      let t := trimChars line
      if t.isEmpty then iniOptions rest current
      else if t.head? = some '[' then
        iniOptions rest (String.mk ((t.drop 1).takeWhile (fun c => c ≠ ']')))
      else
        match splitAtFirst '=' t with
        | some kv =>
            if current = "ss" then
              (String.mk (lowerChars (trimChars kv.1)), String.mk (trimChars kv.2))
                :: iniOptions rest current
            else iniOptions rest current
        | none => iniOptions rest current

/-- `p.get('ss', option)`: the stored string for an option, if present. -/
def lookupOpt (opts : List (String × String)) (name : String) : Option String :=
  (opts.find? (fun p => p.1 == name)).map (fun p => p.2)

/-- `p.getboolean('ss', option)`: `RawConfigParser`'s boolean states, on the
lowercased value; `none` models the `ValueError` raised for any other
string. -/
def getboolean (v : String) : Option Bool :=
  let lv := String.mk (lowerChars v.data)
  if ["1", "yes", "true", "on"].contains lv then some true
  else if ["0", "no", "false", "off"].contains lv then some false
  else none

/-- One `read_if_defined(option, 'getboolean')` step: `some none` when the
option is absent (the default is kept), `some (some b)` when defined and
parseable, `none` when `getboolean` raises. -/
def readBoolOpt (opts : List (String × String)) (name : String) : Option (Option Bool) :=
  match lookupOpt opts name with
  | none => some none
  | some v =>
      match getboolean v with
      | some b => some (some b)
      | none => none

/-- `load_configuration` over the parsed option section: start from the
defaults and overwrite each field that is defined, `language` via `get` and
the three flags via `getboolean`; a `getboolean` failure propagates. -/
def load_configuration (opts : List (String × String)) : Option Configuration :=
  let base : Configuration := {}
  let c₁ :=
    match lookupOpt opts "language" with
    | some v => { base with language := v }
    | none => base
  match readBoolOpt opts "recursive" with
  | none => none
  | some rcv? =>
      let c₂ := match rcv? with | some b => { c₁ with recursive := b } | none => c₁
      match readBoolOpt opts "skip" with
      | none => none
      | some skp? =>
          let c₃ := match skp? with | some b => { c₂ with skip := b } | none => c₂
          match readBoolOpt opts "mkv" with
          | none => none
          | some mkv? =>
              let c₄ := match mkv? with | some b => { c₃ with mkv := b } | none => c₃
              some c₄

/-- Write the configuration through the persistence format and reload it. -/
def config_round_trip (c : Configuration) : Option Configuration :=
  load_configuration (iniOptions (splitOnNl (writeLines (get_lines c))) "")

/-- C7 counterexample: a language string with leading whitespace does not
survive the round trip — the parser strips option values, so `" eng"` is
reloaded as `"eng"` and the reloaded `Configuration` differs from the
original in the `language` field. -/
theorem config_round_trip_strips_language :
    config_round_trip ⟨" eng", false, false, false⟩ ≠ some ⟨" eng", false, false, false⟩ ∧
      config_round_trip ⟨" eng", false, false, false⟩ = some ⟨"eng", false, false, false⟩ := by
  constructor
  · decide
  · decide

theorem splitOnNl_line (xs : List Char) (rest : List Char) (h : '\n' ∉ xs) :
    splitOnNl (xs ++ '\n' :: rest) = xs :: splitOnNl rest := by
  induction xs with
  | nil => simp [splitOnNl]
  | cons a l ih =>
      have ha : ¬ a = '\n' := fun e => h (by simp [e])
      have hl : '\n' ∉ l := fun hm => h (List.mem_cons_of_mem _ hm)
      simp only [List.cons_append, splitOnNl, if_neg ha]
      rw [show l.append ('\n' :: rest) = l ++ '\n' :: rest from rfl]
      rw [ih hl]

theorem trim_of_clean (v : List Char)
    (h₁ : v.dropWhile Char.isWhitespace = v)
    (h₂ : v.reverse.dropWhile Char.isWhitespace = v.reverse) :
    trimChars (' ' :: v) = v := by
  unfold trimChars
  rw [List.dropWhile_cons]
  rw [if_pos (by decide)]
  rw [h₁, h₂, List.reverse_reverse]

theorem iniOptions_header (rest : List (List Char)) (cur : String) :
    iniOptions ("[ss]".data :: rest) cur = iniOptions rest "ss" := rfl

theorem iniOptions_lang_line (v : List Char) (rest : List (List Char))
    (h₁ : v.dropWhile Char.isWhitespace = v)
    (h₂ : v.reverse.dropWhile Char.isWhitespace = v.reverse) :
    iniOptions (("language = ".data ++ v) :: rest) "ss" =
      ("language", String.mk v) :: iniOptions rest "ss" := by
  cases v with
  | nil => rfl
  | cons a v' =>
      have hx : ("language = ".data ++ (a :: v')).dropWhile Char.isWhitespace
          = "language = ".data ++ (a :: v') := by
        rw [show "language = ".data ++ (a :: v')
              = 'l' :: ("anguage = ".data ++ (a :: v')) from rfl]
        rw [List.dropWhile_cons, if_neg (by decide)]
      have htrim : trimChars ("language = ".data ++ (a :: v'))
          = "language = ".data ++ (a :: v') := by
        unfold trimChars
        rw [hx, List.reverse_append, List.dropWhile_append, h₂]
        rw [if_neg (by simp)]
        rw [List.reverse_append, List.reverse_reverse, List.reverse_reverse]
      have hhead : ("language = ".data ++ (a :: v')).head? = some 'l' := rfl
      have hsplit : splitAtFirst '=' ("language = ".data ++ (a :: v'))
          = some ("language ".data, ' ' :: (a :: v')) := rfl
      simp only [iniOptions, htrim, hhead, hsplit]
      rw [if_neg (show ¬ (("language = ".data ++ (a :: v')).isEmpty = true) from by
            simp [List.isEmpty_iff])]
      rw [if_neg (show ¬ ((some 'l' : Option Char) = some '[') from by decide)]
      rw [trim_of_clean (a :: v') h₁ h₂]
      simp only [if_true]
      rfl

theorem iniOptions_recursive_line (b : Bool) (rest : List (List Char)) :
    iniOptions (("recursive = ".data ++ (pyBoolStr b).data) :: rest) "ss" =
      ("recursive", pyBoolStr b) :: iniOptions rest "ss" := by
  cases b <;> rfl

theorem iniOptions_skip_line (b : Bool) (rest : List (List Char)) :
    iniOptions (("skip = ".data ++ (pyBoolStr b).data) :: rest) "ss" =
      ("skip", pyBoolStr b) :: iniOptions rest "ss" := by
  cases b <;> rfl

theorem iniOptions_mkv_line (b : Bool) (rest : List (List Char)) :
    iniOptions (("mkv = ".data ++ (pyBoolStr b).data) :: rest) "ss" =
      ("mkv", pyBoolStr b) :: iniOptions rest "ss" := by
  cases b <;> rfl

theorem load_configuration_written (lv : String) (b₁ b₂ b₃ : Bool) :
    load_configuration [("language", lv), ("recursive", pyBoolStr b₁),
        ("skip", pyBoolStr b₂), ("mkv", pyBoolStr b₃)]
      = some ⟨lv, b₁, b₂, b₃⟩ := by
  cases b₁ <;> cases b₂ <;> cases b₃ <;> rfl

/-- `splitOnNl_line` for a line written as two appended pieces. -/
theorem splitOnNl_line₂ (pre v rest : List Char) (hp : '\n' ∉ pre) (hv : '\n' ∉ v) :
    splitOnNl (pre ++ (v ++ '\n' :: rest)) = (pre ++ v) :: splitOnNl rest := by
  rw [← List.append_assoc]
  exact splitOnNl_line (pre ++ v) rest (by simp [List.mem_append, hp, hv])

/-- C7 (amended): for every `Configuration` whose language string has no
leading or trailing whitespace and contains no newline, writing it through
the persistence format and reloading yields an equal `Configuration` in all
four fields.  (Unrestricted language strings are refuted by
the stripping counterexample.) -/
theorem config_round_trip_id (c : Configuration)
    (h₁ : c.language.data.dropWhile Char.isWhitespace = c.language.data)
    (h₂ : c.language.data.reverse.dropWhile Char.isWhitespace = c.language.data.reverse)
    (h₃ : '\n' ∉ c.language.data) :
    config_round_trip c = some c := by
  obtain ⟨lang, b₁, b₂, b₃⟩ := c
  simp only at h₁ h₂ h₃
  unfold config_round_trip get_lines writeLines
  simp only [List.map_cons, List.map_nil, List.flatten_cons, List.flatten_nil,
    String.data_append, List.append_assoc, List.singleton_append, List.append_nil]
  rw [splitOnNl_line _ _ (by decide)]
  rw [splitOnNl_line₂ _ _ _ (by decide) h₃]
  rw [splitOnNl_line₂ _ _ _ (by decide) (by cases b₁ <;> decide)]
  rw [splitOnNl_line₂ _ _ _ (by decide) (by cases b₂ <;> decide)]
  rw [splitOnNl_line₂ _ _ _ (by decide) (by cases b₃ <;> decide)]
  rw [show splitOnNl [] = [[]] from rfl]
  rw [iniOptions_header]
  rw [iniOptions_lang_line lang.data _ h₁ h₂]
  rw [iniOptions_recursive_line, iniOptions_skip_line, iniOptions_mkv_line]
  rw [show iniOptions [[]] "ss" = [] from rfl]
  rw [load_configuration_written]

theorem config_round_trip_id_witness :
    config_round_trip ⟨"eng", true, false, true⟩ = some ⟨"eng", true, false, true⟩ :=
  config_round_trip_id ⟨"eng", true, false, true⟩ (by decide) (by decide) (by decide)

/-! ### The OpenSubtitles session (`query_open_subtitles`) -/

/-- The fields `obtain_guessit_query` reads from the external `guessit`
classifier (an external collaborator): the free-text query it builds and the
optional season/episode numbers. -/
structure GuessResult where
  query : String
  season : Option Int := none
  episode : Option Int := none
deriving DecidableEq, Repr

/-- `obtain_guessit_query`, with the classifier abstracted: its fields plus
the target language. -/
def obtain_guessit_query (classify : String → GuessResult)
    (movie_filename language : String) : GuessitQuery :=
  let g := classify movie_filename
  { query := g.query, season := g.season, episode := g.episode, sublanguageid := language }

/-- The dictionary built by `obtain_movie_hash_query`. -/
structure MovieHashQuery where
  moviehash : String
  moviebytesize : String
  sublanguageid : String
deriving DecidableEq, Repr

/-- `obtain_movie_hash_query`: fingerprint, decimal byte size and language,
over the file contents `contentOf`. -/
def obtain_movie_hash_query (contentOf : String → List Nat)
    (movie_filename language : String) : MovieHashQuery :=
  { moviehash := calculate_hash_for_file (contentOf movie_filename),
    moviebytesize := toString (contentOf movie_filename).length,
    sublanguageid := language }

/-- One element of the query list passed to `server.SearchSubtitles`. -/
inductive SearchQuery where
  | byName (q : GuessitQuery)
  | byHash (q : MovieHashQuery)
deriving DecidableEq, Repr

/-- The XML-RPC calls `query_open_subtitles` makes, in order. -/
inductive RpcEvent where
  | logIn
  | search (token : String) (queries : List SearchQuery)
  | logOut
deriving DecidableEq, Repr

/-- Failures that can interrupt the session. -/
inductive RunError where
  | searchError (movie : String)
  | logoutError
deriving DecidableEq, Repr

/-- The external world of one `query_open_subtitles` run: the classifier,
the file contents, the server's per-call response data, which
`SearchSubtitles` calls raise, and whether `LogOut` raises. -/
structure QueryEnv where
  classify : String → GuessResult
  contentOf : String → List Nat
  responses : String → List SearchResult
  searchFails : String → Bool
  logoutFails : Bool
  token : String

/-- The `for movie_filename in movie_filenames` loop inside the `try` block:
for each movie it issues one `SearchSubtitles` call carrying that movie's
two queries (the guessit query and the hash query); a raising call aborts
the loop with its exception; otherwise non-empty response data is filtered
and stored under the movie's name. -/
def searchLoop (env : QueryEnv) (language : String) :
    List String → List RpcEvent × Except RunError (List (String × List SearchResult))
  | [] => ([], .ok [])
  | m :: rest =>
      let gq := obtain_guessit_query env.classify m language
      let queries := [SearchQuery.byName gq,
                      SearchQuery.byHash (obtain_movie_hash_query env.contentOf m language)]
      let ev := RpcEvent.search env.token queries
      if env.searchFails m then
        ([ev], .error (.searchError m))
      else
        let data := env.responses m
        let entry := if data.isEmpty then [] else [(m, filter_bad_results data gq)]
        let r := searchLoop env language rest
        (ev :: r.1,
         match r.2 with
         | .ok d => .ok (entry ++ d)
         | .error e => .error e)

/-- `query_open_subtitles`: log in, run the per-movie loop inside `try`, and
call `LogOut` in the `finally` block.  The logout call is always issued; if
it raises, its exception propagates (replacing any pending one), otherwise
the body's outcome stands. -/
def query_open_subtitles_run (env : QueryEnv) (movie_filenames : List String)
    (language : String) :
    List RpcEvent × Except RunError (List (String × List SearchResult)) :=
  let body := searchLoop env language movie_filenames
  let events := RpcEvent.logIn :: body.1 ++ [RpcEvent.logOut]
  if env.logoutFails then (events, .error .logoutError)
  else (events, body.2)

/-- Whether an event is a `SearchSubtitles` call. -/
def isSearchEvent : RpcEvent → Bool
  | .search _ _ => true
  | _ => false

/-- Number of `SearchSubtitles` calls in a trace. -/
def countSearchCalls (events : List RpcEvent) : Nat :=
  events.countP isSearchEvent

/-- A benign environment for concrete runs: empty files, empty responses,
no failing calls. -/
def benignEnv : QueryEnv :=
  { classify := fun _ => { query := "q" },
    contentOf := fun _ => [],
    responses := fun _ => [],
    searchFails := fun _ => false,
    logoutFails := false,
    token := "t" }

/-- C8 counterexample: with two movies the run issues two `SearchSubtitles`
calls — the call is made inside the per-movie loop, one per movie, not once
for all movies. -/
theorem query_two_movies_two_search_calls :
    countSearchCalls (query_open_subtitles_run benignEnv ["a.mkv", "b.mkv"] "eng").1 = 2 ∧
      ¬ countSearchCalls (query_open_subtitles_run benignEnv ["a.mkv", "b.mkv"] "eng").1 ≤ 1 := by
  constructor
  · rfl
  · decide

/-- C8 (amended): the run issues exactly one `SearchSubtitles` request per
movie (each batching only that movie's two queries), provided no search call
raises: `n` movies mean `n` search requests, not one. -/
theorem one_search_call_per_movie (env : QueryEnv) (movies : List String) (language : String)
    (h : ∀ m ∈ movies, env.searchFails m = false) :
    countSearchCalls (query_open_subtitles_run env movies language).1 = movies.length := by
  have hloop : ∀ (ms : List String), (∀ m ∈ ms, env.searchFails m = false) →
      countSearchCalls (searchLoop env language ms).1 = ms.length := by
    intro ms
    induction ms with
    | nil => intro _; rfl
    | cons m rest ih =>
        intro h'
        have hm : env.searchFails m = false := h' m (List.mem_cons_self m rest)
        have ihr := ih (fun x hx => h' x (List.mem_cons_of_mem _ hx))
        simp [searchLoop, hm, countSearchCalls, List.countP_cons, isSearchEvent] at ihr ⊢
        exact ihr
  cases hl : env.logoutFails <;>
    simp [query_open_subtitles_run, hl, countSearchCalls, List.countP_append,
      List.countP_cons, isSearchEvent] <;>
    simpa [countSearchCalls] using hloop movies h

theorem one_search_call_per_movie_witness :
    countSearchCalls (query_open_subtitles_run benignEnv ["a.mkv"] "eng").1 = 1 :=
  one_search_call_per_movie benignEnv ["a.mkv"] "eng" (fun _ _ => rfl)

/-- The benign environment with a raising `LogOut`. -/
def logoutFailEnv : QueryEnv :=
  { benignEnv with logoutFails := true }

/-- C9 counterexample: a run in which login and every search succeed but the
`LogOut` call raises ends in the logout error — the exception escapes the
`finally` block, so a logout failure does crash the whole run. -/
theorem logout_failure_crashes_run :
    (query_open_subtitles_run logoutFailEnv ["a.mkv"] "eng").2
        = Except.error RunError.logoutError ∧
      logoutFailEnv.searchFails "a.mkv" = false := by
  constructor
  · rfl
  · rfl

/-- C9 (amended): the `LogOut` call is issued on every run — also when a
search call raises mid-loop — but when the logout call itself fails its
exception propagates and the run ends in that error. -/
theorem logout_always_issued_but_failure_propagates (env : QueryEnv)
    (movies : List String) (language : String) :
    RpcEvent.logOut ∈ (query_open_subtitles_run env movies language).1 ∧
      (env.logoutFails = true →
        (query_open_subtitles_run env movies language).2
          = Except.error RunError.logoutError) := by
  constructor
  · cases hl : env.logoutFails <;> simp [query_open_subtitles_run, hl]
  · intro h
    simp [query_open_subtitles_run, h]

theorem logout_always_issued_witness :
    RpcEvent.logOut ∈ (query_open_subtitles_run logoutFailEnv ["a.mkv"] "eng").1 ∧
      (query_open_subtitles_run logoutFailEnv ["a.mkv"] "eng").2
        = Except.error RunError.logoutError :=
  ⟨(logout_always_issued_but_failure_propagates logoutFailEnv ["a.mkv"] "eng").1,
   (logout_always_issued_but_failure_propagates logoutFailEnv ["a.mkv"] "eng").2 rfl⟩

/-! ### The MKV embedding phase of `main` -/

/-- Python `str.lower()` (ASCII). -/
def strLower (s : String) : String :=
  String.mk (lowerChars s.data)

/-- One element of `ms` in `main`: the movie, the chosen download link
and extension, and the resolved subtitle path. -/
structure MatchEntry where
  movie_filename : String
  subtitle_url : String
  subtitle_ext : String
  subtitle_filename : String
deriving DecidableEq, Repr

/-- The `if config.mkv` loop of `main` (lines 380–395), with the external
`embed_mkv` outcome abstracted as `embedOutcome` (success flag and captured
output).  For a movie whose own extension does not lower-case to `.mkv` the
merge tool is invoked, a `DONE`/`ERROR` status line is printed for the
output file, and a failure is recorded when the tool failed; otherwise the
movie is reported `skipped`.  Returns (printed status lines, failures,
movies for which `embed_mkv` was invoked). -/
def mergePhase (embedOutcome : String → Bool × String) :
    List MatchEntry → List (String × String) × List (String × String) × List String
  | [] => ([], [], [])
  | e :: rest =>
      let r := mergePhase embedOutcome rest
      if strLower (osSplitext e.movie_filename).2 ≠ ".mkv" then
        let res := embedOutcome e.movie_filename
        let output_filename := (osSplitext e.movie_filename).1 ++ ".mkv"
        ((osBasename output_filename, if res.1 then "DONE" else "ERROR") :: r.1,
         (if res.1 then r.2.1 else (e.movie_filename, res.2) :: r.2.1),
         e.movie_filename :: r.2.2)
      else
        ((osBasename e.movie_filename, "skipped") :: r.1, r.2.1, r.2.2)

theorem mergePhase_invoked_not_mkv (embedOutcome : String → Bool × String)
    (ms : List MatchEntry) (x : String)
    (hx : x ∈ (mergePhase embedOutcome ms).2.2) :
    strLower (osSplitext x).2 ≠ ".mkv" := by
  induction ms with
  | nil => simp [mergePhase] at hx
  | cons e rest ih =>
      by_cases he : strLower (osSplitext e.movie_filename).2 = ".mkv"
      · simp only [mergePhase, ne_eq, he, not_true_eq_false, if_false] at hx
        exact ih hx
      · simp only [mergePhase, ne_eq, he, not_false_eq_true, if_true, List.mem_cons] at hx
        rcases hx with rfl | hx
        · exact he
        · exact ih hx

theorem mergePhase_failures_not_mkv (embedOutcome : String → Bool × String)
    (ms : List MatchEntry) (x out : String)
    (hx : (x, out) ∈ (mergePhase embedOutcome ms).2.1) :
    strLower (osSplitext x).2 ≠ ".mkv" := by
  induction ms with
  | nil => simp [mergePhase] at hx
  | cons e rest ih =>
      by_cases he : strLower (osSplitext e.movie_filename).2 = ".mkv"
      · simp only [mergePhase, ne_eq, he, not_true_eq_false, if_false] at hx
        exact ih hx
      · simp only [mergePhase, ne_eq, he, not_false_eq_true, if_true] at hx
        cases hres : (embedOutcome e.movie_filename).1 with
        | true =>
            rw [hres] at hx
            simp only [if_true] at hx
            exact ih hx
        | false =>
            rw [hres] at hx
            simp only [Bool.false_eq_true, if_false, List.mem_cons] at hx
            rcases hx with heq | hx
            · cases heq
              exact he
            · exact ih hx

theorem mergePhase_skipped_status (embedOutcome : String → Bool × String)
    (ms : List MatchEntry) (m : MatchEntry) (hm : m ∈ ms)
    (hext : strLower (osSplitext m.movie_filename).2 = ".mkv") :
    (osBasename m.movie_filename, "skipped") ∈ (mergePhase embedOutcome ms).1 := by
  induction ms with
  | nil => cases hm
  | cons e rest ih =>
      rcases List.mem_cons.mp hm with rfl | hm'
      · simp [mergePhase, hext]
      · by_cases he : strLower (osSplitext e.movie_filename).2 = ".mkv"
        · simp only [mergePhase, ne_eq, he, not_true_eq_false, if_false, List.mem_cons]
          exact Or.inr (ih hm')
        · simp only [mergePhase, ne_eq, he, not_false_eq_true, if_true, List.mem_cons]
          exact Or.inr (ih hm')

/-- C10: with merging enabled, a matched movie whose own extension
lower-cases to `.mkv` is excluded from merging: `embed_mkv` is never invoked
for it, it is reported with the `skipped` status, and it contributes no
merge failure. -/
theorem mkv_movie_excluded_from_merge (embedOutcome : String → Bool × String)
    (ms : List MatchEntry) (m : MatchEntry) (hm : m ∈ ms)
    (hext : strLower (osSplitext m.movie_filename).2 = ".mkv") :
    (osBasename m.movie_filename, "skipped") ∈ (mergePhase embedOutcome ms).1 ∧
      m.movie_filename ∉ (mergePhase embedOutcome ms).2.2 ∧
      ∀ out, (m.movie_filename, out) ∉ (mergePhase embedOutcome ms).2.1 :=
  ⟨mergePhase_skipped_status embedOutcome ms m hm hext,
   fun hinv => mergePhase_invoked_not_mkv embedOutcome ms _ hinv hext,
   fun _ hfail => mergePhase_failures_not_mkv embedOutcome ms _ _ hfail hext⟩

theorem mkv_movie_excluded_from_merge_witness :
    (osBasename "Movie.MKV", "skipped")
        ∈ (mergePhase (fun _ => (false, "out")) [⟨"Movie.MKV", "u", ".srt", "Movie.srt"⟩]).1 ∧
      "Movie.MKV" ∉ (mergePhase (fun _ => (false, "out"))
          [⟨"Movie.MKV", "u", ".srt", "Movie.srt"⟩]).2.2 ∧
      ∀ out, ("Movie.MKV", out) ∉ (mergePhase (fun _ => (false, "out"))
          [⟨"Movie.MKV", "u", ".srt", "Movie.srt"⟩]).2.1 :=
  mkv_movie_excluded_from_merge (fun _ => (false, "out"))
    [⟨"Movie.MKV", "u", ".srt", "Movie.srt"⟩] ⟨"Movie.MKV", "u", ".srt", "Movie.srt"⟩
    (List.mem_singleton.mpr rfl) (by decide)

end SS
